import Mathlib

/-!
Shallow embedding of the ETHSight signal-driven execution engine.

Sources:
* `src/backtest_utils/geckoterminal_backtracker/analysis/plotly_visualizer.py.bak`,
  function `plot_with_indicators`: signal classification, the spot-trading
  simulation loop (valid buy/sell filtering), the trade-statistics block and
  the cumulative-PNL (equity) computation.
* `src/unnamed/part_000`, class `UniswapTrader`: `checkPairExists`,
  `getTokenDecimals`, `swapExactEthForTokens`, `swapExactTokensForEth`.

Machine integers (JS `BigInt`) are modelled as `ℕ`/`ℤ`; prices, slippage and
returns (Python/JS floating point values) are modelled as `ℚ` with exact
arithmetic.
-/

namespace ETHSight

/-! ## Signal events and the position state machine

The visualizer builds, for each signal column, a list of buy rows and a list
of sell rows, concatenates them (buys first) and stably sorts by `datetime`
(lines 174-185), then walks the sorted list keeping an `in_position` flag
(lines 186-197): a buy row is accepted only when not in position, a sell row
only when in position.
-/

inductive SigType
  | buy
  | sell
deriving DecidableEq, Repr

/-- One row of `all_signals`: `(datetime, signal_type, close)`. -/
structure SigEvent where
  time : ℕ
  typ : SigType
  price : ℚ
deriving DecidableEq, Repr

/-- The loop state of the simulation at lines 186-197: the `in_position` /
`entry_price` variables plus the `valid_buy_signals` / `valid_sell_signals`
accumulators.  `accepted` is the merged list of accepted events in processing
order (the union of the two accumulators, interleaved as processed). -/
structure SimState where
  in_position : Bool
  entry_price : ℚ
  validBuys : List SigEvent
  validSells : List SigEvent
  accepted : List SigEvent
deriving DecidableEq, Repr

def initState : SimState :=
  { in_position := false, entry_price := 0, validBuys := [], validSells := [], accepted := [] }

/-- One iteration of the loop at lines 188-197. -/
def simStep (s : SimState) (e : SigEvent) : SimState :=
  match e.typ with
  | .buy =>
      if s.in_position then s
      else { s with in_position := true, entry_price := e.price,
                    validBuys := s.validBuys ++ [e], accepted := s.accepted ++ [e] }
  | .sell =>
      if s.in_position then
        { s with in_position := false,
                 validSells := s.validSells ++ [e], accepted := s.accepted ++ [e] }
      else s

def runSimFrom (s : SimState) (l : List SigEvent) : SimState :=
  l.foldl simStep s

def runSim (l : List SigEvent) : SimState :=
  runSimFrom initState l

/-- Stable insertion of an event into a time-sorted list: the new event goes
after every element whose time is `≤` its own. -/
def insertByTime (e : SigEvent) : List SigEvent → List SigEvent
  | [] => [e]
  | x :: xs => if x.time ≤ e.time then x :: insertByTime e xs else e :: x :: xs

/-- Stable sort by `datetime` (Python `sort` / pandas `sort_values` keep the
relative order of equal keys; buys were concatenated before sells). -/
def sortByTime (l : List SigEvent) : List SigEvent :=
  l.foldl (fun acc e => insertByTime e acc) []

/-- Lines 174-185 / 296-301: buy rows first, then sell rows, stably sorted by
time, so that at equal timestamps buys are processed before sells. -/
def orderSignals (buys sells : List SigEvent) : List SigEvent :=
  sortByTime (buys ++ sells)

/-! ## Trades and trade statistics (lines 269-288) -/

/-- A completed round trip: `buy_sell_pairs[i]` together with `returns[i]`. -/
structure Trade where
  entryTime : ℕ
  entryPrice : ℚ
  exitTime : ℕ
  exitPrice : ℚ
  retPct : ℚ
deriving DecidableEq, Repr

/-- Line 284: `(sell_price - buy_price) / buy_price * 100`. -/
def returnPct (buyPrice sellPrice : ℚ) : ℚ :=
  (sellPrice - buyPrice) / buyPrice * 100

def mkTrade (b s : SigEvent) : Trade :=
  { entryTime := b.time, entryPrice := b.price,
    exitTime := s.time, exitPrice := s.price,
    retPct := returnPct b.price s.price }

/-- Lines 279-285: pairs are formed index-wise for
`i in range(min(len(valid_buy_df), len(valid_sell_df)))`. -/
def tradesOf (buys sells : List SigEvent) : List Trade :=
  (buys.zip sells).map fun p => mkTrade p.1 p.2

/-- The `returns` list of line 276/284. -/
def returnsList (buys sells : List SigEvent) : List ℚ :=
  (buys.zip sells).map fun p => returnPct p.1.price p.2.price

/-- Line 272: the count of index-wise pairs whose sell close exceeds the
buy close, over the first `len(valid_sell_df)` pairs. -/
def profitableCount (buys sells : List SigEvent) : ℕ :=
  (sells.zip buys).countP fun p => decide (p.2.price < p.1.price)

structure TradeStats where
  total_trades : ℕ
  profitable_trades : ℕ
  win_rate : ℚ
  total_return : ℚ
  avg_return : ℚ
deriving DecidableEq, Repr

/-- Lines 271-288: the statistics block, as a pure function of the valid
buy/sell lists (the Trading Statistics Aggregator of the spec). -/
def tradingStats (buys sells : List SigEvent) : TradeStats :=
  let total := sells.length
  let prof := profitableCount buys sells
  let rets := returnsList buys sells
  let totalRet := rets.sum
  { total_trades := total
    profitable_trades := prof
    win_rate := if 0 < total then (prof : ℚ) / (total : ℚ) * 100 else 0
    total_return := totalRet
    avg_return := if rets ≠ [] then totalRet / (rets.length : ℚ) else 0 }

/-! ## Cumulative PNL / equity curve (lines 303-346) -/

/-- One element of `pnl_data`: `(time, current_value, profit_pct * 100)`. -/
structure PnlPoint where
  time : ℕ
  value : ℚ
  profitPct : ℚ
deriving DecidableEq, Repr

/-- Loop state of lines 308-325: `current_value`, `in_position`,
`entry_price` and the `pnl_data` accumulator. -/
structure PnlState where
  currentValue : ℚ
  in_position : Bool
  entry_price : ℚ
  pnlData : List PnlPoint
deriving DecidableEq, Repr

/-- Line 308: `initial_investment = 1000`. -/
def initialInvestment : ℚ := 1000

/-- One iteration of the loop at lines 315-325. -/
def pnlStep (s : PnlState) (e : SigEvent) : PnlState :=
  match e.typ with
  | .buy =>
      if s.in_position then s
      else { s with entry_price := e.price, in_position := true }
  | .sell =>
      if s.in_position then
        let profitPct := (e.price - s.entry_price) / s.entry_price
        let v := s.currentValue * (1 + profitPct)
        { s with currentValue := v, in_position := false,
                 pnlData := s.pnlData ++ [⟨e.time, v, profitPct * 100⟩] }
      else s

def initPnlState : PnlState :=
  { currentValue := initialInvestment, in_position := false, entry_price := 0, pnlData := [] }

def runPnlFrom (s : PnlState) (l : List SigEvent) : PnlState :=
  l.foldl pnlStep s

def runPnl (l : List SigEvent) : PnlState :=
  runPnlFrom initPnlState l

/-- Lines 333-346: each bar is assigned the value of the last PNL point at or
before its time, and `1000` before the first trade close. -/
def equityAt (pnlData : List PnlPoint) (t : ℕ) : ℚ :=
  match (pnlData.filter fun p => p.time ≤ t).getLast? with
  | some p => p.value
  | none => initialInvestment

/-! ## The `plot_with_indicators` pipeline (lines 34-65 and 150-355)

A DataFrame is modelled as a set of column names plus a list of rows; only
the fields the embedded computation reads (`datetime`, `close` and the
integer-valued signal columns) are carried per row.  Signal extraction is
embedded for the integer-dtype branch (lines 156-158: value `1` marks a buy
row, value `-1` a sell row), the branch the buy/sell simulation claims
exercise.
-/

structure Row where
  time : ℕ
  close : ℚ
  vals : String → Int

structure DFrame where
  columns : List String
  rows : List Row

/-- Helper: does `l` start with `pat`? -/
def leadsWith : List Char → List Char → Bool
  | [], _ => true
  | _ :: _, [] => false
  | p :: ps, c :: cs => p == c && leadsWith ps cs

/-- Helper: does `l` contain `pat` as a contiguous run? -/
def containsSub (pat : List Char) : List Char → Bool
  | [] => pat.isEmpty
  | c :: cs => leadsWith pat (c :: cs) || containsSub pat cs

def lowerChars (s : String) : List Char :=
  s.toList.map Char.toLower

/-- Lines 53-54: name-based signal classification — the lower-cased column
name contains the word signal, buy or sell, or the name contains one of the
Chinese markers. -/
def isSignalName (s : String) : Bool :=
  containsSub "signal".toList (lowerChars s) ||
  containsSub "buy".toList (lowerChars s) ||
  containsSub "sell".toList (lowerChars s) ||
  containsSub "信号".toList s.toList ||
  containsSub "买入".toList s.toList ||
  containsSub "卖出".toList s.toList

/-- Line 157: `buy_signals = signal_df[signal_df[signal_ind] == 1]`. -/
def buyRows (df : DFrame) (col : String) : List Row :=
  df.rows.filter fun r => r.vals col == 1

/-- Line 158: `sell_signals = signal_df[signal_df[signal_ind] == -1]`
(the `if -1 in values else empty` guard is equivalent to the filter). -/
def sellRows (df : DFrame) (col : String) : List Row :=
  df.rows.filter fun r => r.vals col == -1

def rowEvent (t : SigType) (r : Row) : SigEvent :=
  { time := r.time, typ := t, price := r.close }

/-- Everything the pipeline computes for one signal column: the valid
buy/sell lists (lines 168-201), the round-trip pairs and statistics
(lines 269-288) and the cumulative-PNL pass (lines 296-325). -/
structure SignalResult where
  validBuys : List SigEvent
  validSells : List SigEvent
  trades : List Trade
  stats : TradeStats
  pnl : PnlState

def processSignal (df : DFrame) (col : String) : SignalResult :=
  let buys := (buyRows df col).map (rowEvent .buy)
  let sells := (sellRows df col).map (rowEvent .sell)
  let r := runSim (orderSignals buys sells)
  { validBuys := r.validBuys
    validSells := r.validSells
    trades := tradesOf r.validBuys r.validSells
    stats := tradingStats r.validBuys r.validSells
    pnl := runPnl (orderSignals r.validBuys r.validSells) }

/-- The errors `plot_with_indicators` can raise.
`configurationError` is the two `ValueError` failures of lines 36-37 and
41-43 (the spec taxonomy calls this class `ConfigurationError`); its payload
is the full list of missing column names, as interpolated into the message.
`keyError` is the unhandled `KeyError` of line 220, carrying the missing
key. -/
inductive PlotError
  | configurationError (missingColumns : List String)
  | keyError (key : String)
deriving DecidableEq, Repr

/-- Line 40. -/
def requiredColumns : List String :=
  ["datetime", "open", "high", "low", "close", "volume"]

structure PlotResult where
  signalResults : List (String × SignalResult)

/-- Lines 199-266: drawing the buy/sell markers for one signal column.
Line 200 builds the valid-buy frame as a column-less `pd.DataFrame()` when
no buy was accepted, and the UNGUARDED lines 219-220 then index its high
column (`buy_df_offset` offset computation), raising `KeyError` before the
emptiness guard of line 223 is reached.  With at least one accepted buy the
frame inherits all bar columns and rendering proceeds (the sell-side offset
of line 246 sits inside the line-243 emptiness guard and cannot raise). -/
def renderSignal (df : DFrame) (col : String) : Except PlotError SignalResult :=
  let r := processSignal df col
  if r.validBuys.isEmpty then .error (.keyError "high") else .ok r

/-- The per-signal loop of lines 151-355: each signal column is rendered in
turn, and the first raised error aborts the whole call. -/
def renderSignals (df : DFrame) :
    List String → Except PlotError (List (String × SignalResult))
  | [] => .ok []
  | col :: rest =>
    match renderSignal df col with
    | .error e => .error e
    | .ok r =>
      match renderSignals df rest with
      | .error e => .error e
      | .ok rs => .ok ((col, r) :: rs)

/-- Lines 34-65 plus the per-signal loop: validate the requested indicator
columns, validate the required OHLCV columns, classify the signal columns by
name, and render each one — which raises `KeyError` whenever a signal
column ends up with no accepted buys, in particular on every empty bar
series. -/
def plot_with_indicators (df : DFrame) (indicators : List String) :
    Except PlotError PlotResult :=
  let missing_indicators := indicators.filter fun i => !(df.columns.contains i)
  if missing_indicators ≠ [] then
    .error (.configurationError missing_indicators)
  else
    let missing_columns := requiredColumns.filter fun c => !(df.columns.contains c)
    if missing_columns ≠ [] then
      .error (.configurationError missing_columns)
    else
      match renderSignals df (indicators.filter isSignalName) with
      | .error e => .error e
      | .ok rs => .ok { signalResults := rs }

/-! ## The swap executor: `UniswapTrader` (`src/unnamed/part_000`)

The on-chain calls are modelled by an environment record holding the result
each external call would produce (`ok` value or `thrown` message), and each
swap operation returns the ordered list of chain actions it performed
together with its outcome, so that "never submits" claims are statements
about the action trace.
-/

/-- Result of an awaited external call: the value, or the thrown error. -/
inductive CallResult (α : Type)
  | ok (val : α)
  | thrown (msg : String)
deriving DecidableEq, Repr

/-- `ethers.ZeroAddress`; addresses are modelled as `ℕ`. -/
def zeroAddress : ℕ := 0

/-- Lines 215-230: `checkPairExists` — `false` when the factory reports the
zero address, `false` when the factory call throws, `true` otherwise. -/
def checkPairExists (lookup : CallResult ℕ) : Bool :=
  match lookup with
  | .ok pairAddress => !(pairAddress == zeroAddress)
  | .thrown _ => false

/-- Lines 232-248: cached decimals lookup, defaulting to 18 when the
on-chain call throws. -/
def getTokenDecimals (cached : Option ℕ) (lookup : CallResult ℕ) : ℕ :=
  match cached with
  | some d => d
  | none =>
    match lookup with
    | .ok d => d
    | .thrown _ => 18

/-- Lines 280 and 342:
`minAmountOut = amountsOut[1] * BigInt(Math.floor((1 - slippage / 100) * 1000)) / BigInt(1000)`.
The inner multiplier is floored over exact rationals (it agrees with the JS
double computation at the reference slippage values); the outer `BigInt`
division truncates toward zero, which on the nonnegative products at hand is
`Int.div`. -/
def minAmountOutOf (quotedOut : ℕ) (slippage : ℚ) : ℤ :=
  Int.tdiv ((quotedOut : ℤ) * ⌊(1 - slippage / 100) * 1000⌋) 1000

/-- The chain actions a swap operation can perform, in submission order. -/
inductive ChainAction
  | getPair
  | getQuote
  | approveTx
  | submitSwap (amountInWei : ℕ) (minAmountOut : ℤ) (deadline : ℕ)
  | waitReceipt
deriving DecidableEq, Repr

inductive SwapResult
  | confirmed (status : Bool)
  | failed (msg : String)
deriving DecidableEq, Repr

structure SwapOutcome where
  actions : List ChainAction
  result : SwapResult
deriving DecidableEq, Repr

/-- The observable behaviour of the external world during one swap call. -/
structure ChainEnv where
  pairLookup : CallResult ℕ
  quoteLookup : CallResult (List ℕ)
  allowanceLookup : CallResult ℕ
  approveResult : CallResult Unit
  txResult : CallResult Bool
  decimalsLookup : CallResult ℕ
  cachedDecimals : Option ℕ
  now : ℕ

/-- Shared tail of both swap operations: quote (lines 273-276 / 337-340),
minimum-out computation (lines 280 / 342), transaction submission and
receipt wait (lines 286-296 / 348-358).  `doneActions` are the actions
already performed; `amountInWei` is the exact input amount submitted. -/
def quoteAndSwap (env : ChainEnv) (doneActions : List ChainAction)
    (amountInWei : ℕ) (slippage : ℚ) : SwapOutcome :=
  match env.quoteLookup with
  | .thrown msg => { actions := doneActions ++ [.getQuote], result := .failed msg }
  | .ok amountsOut =>
    match amountsOut with
    | _ :: quotedOut :: _ =>
      let minAmountOut := minAmountOutOf quotedOut slippage
      let deadline := env.now + 300
      match env.txResult with
      | .thrown msg =>
          { actions := doneActions ++ [.getQuote, .submitSwap amountInWei minAmountOut deadline],
            result := .failed msg }
      | .ok status =>
          { actions := doneActions ++ [.getQuote, .submitSwap amountInWei minAmountOut deadline, .waitReceipt],
            result := .confirmed status }
    | _ =>
      { actions := doneActions ++ [.getQuote],
        result := .failed "TypeError: amountsOut[1] is undefined" }

/-- Lines 262-303: `swapExactEthForTokens(tokenAddress, amountEth, slippage = 0.5)`.
`amountEthWei` is the already-parsed wei amount (`ethers.parseEther`). -/
def swapExactEthForTokens (env : ChainEnv) (amountEthWei : ℕ) (slippage : ℚ) : SwapOutcome :=
  if !(checkPairExists env.pairLookup) then
    { actions := [.getPair], result := .failed "No liquidity pool exists for this pair" }
  else
    quoteAndSwap env [.getPair] amountEthWei slippage

/-- Lines 305-365: `swapExactTokensForEth(tokenAddress, amountTokens, slippage = 0.5)`.
`amountTokens` is the token amount in whole units; line 314 scales it by
`10 ^ decimals` (`ethers.parseUnits`). -/
def swapExactTokensForEth (env : ChainEnv) (amountTokens : ℕ) (slippage : ℚ) : SwapOutcome :=
  if !(checkPairExists env.pairLookup) then
    { actions := [.getPair], result := .failed "No liquidity pool exists for this pair" }
  else
    let decimals := getTokenDecimals env.cachedDecimals env.decimalsLookup
    let amountTokensWei := amountTokens * 10 ^ decimals
    match env.allowanceLookup with
    | .thrown msg => { actions := [.getPair], result := .failed msg }
    | .ok allowance =>
      if allowance < amountTokensWei then
        match env.approveResult with
        | .thrown msg => { actions := [.getPair, .approveTx], result := .failed msg }
        | .ok _ => quoteAndSwap env [.getPair, .approveTx] amountTokensWei slippage
      else
        quoteAndSwap env [.getPair] amountTokensWei slippage

/-! ## Derived notions used by the statements -/

/-- `altOk b l = true` iff, reading `l` left to right with `b` as the current
position flag (`false` = FLAT, `true` = LONG), the events strictly alternate:
a buy is expected exactly when FLAT and a sell exactly when LONG. -/
def altOk : Bool → List SigEvent → Bool
  | _, [] => true
  | false, e :: es => e.typ == SigType.buy && altOk true es
  | true, e :: es => e.typ == SigType.sell && altOk false es

/-- The position flag after processing `l` from flag `b`, flipping once per
event. -/
def altEnd : Bool → List SigEvent → Bool
  | b, [] => b
  | b, _ :: es => altEnd (!b) es

/-- Invariant of the simulation loop: the accepted trace alternates starting
from FLAT, its parity is the current position flag, and the valid buy/sell
accumulators are exactly its buy/sell events. -/
def SimInv (s : SimState) : Prop :=
  altOk false s.accepted = true ∧
  altEnd false s.accepted = s.in_position ∧
  s.validBuys = s.accepted.filter (fun e => e.typ == SigType.buy) ∧
  s.validSells = s.accepted.filter (fun e => e.typ == SigType.sell)

/-- The spec scenario: bars `[(t1,10),(t2,12),(t3,9),(t4,11)]`, buy signal
true only at `t1`, sell signal true only at `t3` (one integer signal column
holding `1` at `t1` and `-1` at `t3`). -/
def scenarioFrame : DFrame :=
  { columns := requiredColumns ++ ["my_signal"]
    rows := [
      { time := 1, close := 10, vals := fun c => if c = "my_signal" then 1 else 0 },
      { time := 2, close := 12, vals := fun _ => 0 },
      { time := 3, close := 9, vals := fun c => if c = "my_signal" then -1 else 0 },
      { time := 4, close := 11, vals := fun _ => 0 }] }

/-- An empty bar series: every required column and one signal column are
present, but there are no rows. -/
def emptyFrame : DFrame :=
  { columns := requiredColumns ++ ["my_signal"], rows := [] }

/-! ## Helper lemmas about the position state machine -/

theorem altEnd_append (b : Bool) (l : List SigEvent) (e : SigEvent) :
    altEnd b (l ++ [e]) = !(altEnd b l) := by
  induction l generalizing b with
  | nil => rfl
  | cons x xs ih =>
    simp only [List.cons_append, altEnd]
    exact ih (!b)

theorem altOk_append (b : Bool) (l : List SigEvent) (e : SigEvent) :
    altOk b (l ++ [e]) =
      (altOk b l &&
        (if altEnd b l then e.typ == SigType.sell else e.typ == SigType.buy)) := by
  induction l generalizing b with
  | nil => cases b <;> simp [altOk, altEnd]
  | cons x xs ih =>
    cases b <;> simp [altOk, altEnd, ih, Bool.and_assoc]

theorem simStep_inv {s : SimState} (hI : SimInv s) (e : SigEvent) :
    SimInv (simStep s e) := by
  obtain ⟨h1, h2, h3, h4⟩ := hI
  cases he : e.typ with
  | buy =>
    cases hp : s.in_position with
    | true => simpa [simStep, he, hp] using ⟨h1, h2, h3, h4⟩
    | false =>
      rw [hp] at h2
      refine ⟨?_, ?_, ?_, ?_⟩ <;>
        simp [simStep, he, hp, altOk_append, altEnd_append, List.filter_append,
          h1, h2, h3, h4]
  | sell =>
    cases hp : s.in_position with
    | false => simpa [simStep, he, hp] using ⟨h1, h2, h3, h4⟩
    | true =>
      rw [hp] at h2
      refine ⟨?_, ?_, ?_, ?_⟩ <;>
        simp [simStep, he, hp, altOk_append, altEnd_append, List.filter_append,
          h1, h2, h3, h4]

theorem runSimFrom_inv {s : SimState} (hI : SimInv s) (l : List SigEvent) :
    SimInv (runSimFrom s l) := by
  induction l generalizing s with
  | nil => exact hI
  | cons e es ih => exact ih (simStep_inv hI e)

theorem initState_inv : SimInv initState := by
  refine ⟨rfl, rfl, rfl, rfl⟩

theorem runSim_inv (l : List SigEvent) : SimInv (runSim l) :=
  runSimFrom_inv initState_inv l

/-- Every event the simulation accepts comes from the input list. -/
theorem runSimFrom_accepted_mem (l : List SigEvent) :
    ∀ s e, e ∈ (runSimFrom s l).accepted → e ∈ s.accepted ∨ e ∈ l := by
  induction l with
  | nil => intro s e h; exact Or.inl h
  | cons x xs ih =>
    intro s e h
    rcases ih (simStep s x) e h with h' | h'
    · cases hx : x.typ <;> cases hp : s.in_position <;>
        simp [simStep, hx, hp] at h' <;>
        first
        | exact Or.inl h'
        | rcases h' with h' | h'
          · exact Or.inl h'
          · exact Or.inr (by simp [h'])
    · exact Or.inr (List.mem_cons_of_mem x h')

theorem runSim_accepted_mem (l : List SigEvent) {e : SigEvent}
    (h : e ∈ (runSim l).accepted) : e ∈ l := by
  rcases runSimFrom_accepted_mem l initState e h with h' | h'
  · simp [initState] at h'
  · exact h'

/-- Count bound extracted from strict alternation. -/
theorem altOk_counts :
    ∀ (l : List SigEvent) (b : Bool), altOk b l = true →
      if b then
        (l.countP fun e => e.typ == SigType.buy) ≤ (l.countP fun e => e.typ == SigType.sell) ∧
        (l.countP fun e => e.typ == SigType.sell) ≤ (l.countP fun e => e.typ == SigType.buy) + 1
      else
        (l.countP fun e => e.typ == SigType.sell) ≤ (l.countP fun e => e.typ == SigType.buy) ∧
        (l.countP fun e => e.typ == SigType.buy) ≤ (l.countP fun e => e.typ == SigType.sell) + 1 := by
  intro l
  induction l with
  | nil => intro b _; cases b <;> simp
  | cons e es ih =>
    intro b hb
    cases b with
    | false =>
      cases hety : e.typ with
      | buy =>
        rw [altOk, hety] at hb
        simp only [beq_self_eq_true, Bool.true_and] at hb
        have h := ih true hb
        simp only [if_true] at h
        simp only [List.countP_cons, hety]
        simp
        omega
      | sell =>
        rw [altOk, hety] at hb
        simp at hb
    | true =>
      cases hety : e.typ with
      | buy =>
        rw [altOk, hety] at hb
        simp at hb
      | sell =>
        rw [altOk, hety] at hb
        simp only [beq_self_eq_true, Bool.true_and] at hb
        have h := ih false hb
        simp only [if_false] at h
        simp only [List.countP_cons, hety]
        simp at h ⊢
        omega

/-- The accepted sells never outnumber the accepted buys, and the accepted
buys exceed the accepted sells by at most one (the possible still-open
position). -/
theorem runSim_length_le (l : List SigEvent) :
    (runSim l).validSells.length ≤ (runSim l).validBuys.length ∧
    (runSim l).validBuys.length ≤ (runSim l).validSells.length + 1 := by
  obtain ⟨h1, _, h3, h4⟩ := runSim_inv l
  have h := altOk_counts (runSim l).accepted false h1
  simp only [if_false] at h
  rw [h3, h4, ← List.countP_eq_length_filter, ← List.countP_eq_length_filter]
  exact h

/-! ## Helper lemmas about the PNL pass -/

theorem runPnlFrom_spec (l : List SigEvent) :
    ∀ s : PnlState, ∃ suffix : List PnlPoint,
      (runPnlFrom s l).pnlData = s.pnlData ++ suffix ∧
      (runPnlFrom s l).currentValue =
        s.currentValue * (suffix.map fun p => 1 + p.profitPct / 100).prod := by
  induction l with
  | nil => intro s; exact ⟨[], by simp [runPnlFrom]⟩
  | cons e es ih =>
    intro s
    have hstep : runPnlFrom s (e :: es) = runPnlFrom (pnlStep s e) es := rfl
    cases hety : e.typ with
    | buy =>
      obtain ⟨suffix, hd, hv⟩ := ih (pnlStep s e)
      refine ⟨suffix, ?_, ?_⟩ <;>
        cases hp : s.in_position <;>
        simp only [hstep, pnlStep, hety, hp] at hd hv ⊢ <;> simpa using (by assumption)
    | sell =>
      cases hp : s.in_position with
      | false =>
        obtain ⟨suffix, hd, hv⟩ := ih (pnlStep s e)
        simp only [pnlStep, hety, hp] at hd hv
        exact ⟨suffix, by simpa [hstep, pnlStep, hety, hp] using hd,
          by simpa [hstep, pnlStep, hety, hp] using hv⟩
      | true =>
        have hred : pnlStep s e =
            { currentValue := s.currentValue * (1 + (e.price - s.entry_price) / s.entry_price),
              in_position := false, entry_price := s.entry_price,
              pnlData := s.pnlData ++ [⟨e.time,
                s.currentValue * (1 + (e.price - s.entry_price) / s.entry_price),
                (e.price - s.entry_price) / s.entry_price * 100⟩] } := by
          simp [pnlStep, hety, hp]
        obtain ⟨suffix, hd, hv⟩ := ih (pnlStep s e)
        rw [hred] at hd hv
        refine ⟨⟨e.time, s.currentValue * (1 + (e.price - s.entry_price) / s.entry_price),
          (e.price - s.entry_price) / s.entry_price * 100⟩ :: suffix, ?_, ?_⟩
        · rw [hstep, hred, hd]
          simp
        · rw [hstep, hred, hv]
          have h100 : ((e.price - s.entry_price) / s.entry_price * 100) / 100 =
              (e.price - s.entry_price) / s.entry_price :=
            mul_div_cancel_right₀ _ (by norm_num)
          simp only [List.map_cons, List.prod_cons, h100]
          ring

/-- The equity value is the initial capital multiplied by `1 + return/100`
once per recorded trade close, and by nothing else. -/
theorem runPnl_value (l : List SigEvent) :
    (runPnl l).currentValue =
      initialInvestment * ((runPnl l).pnlData.map fun p => 1 + p.profitPct / 100).prod := by
  obtain ⟨suffix, hd, hv⟩ := runPnlFrom_spec l initPnlState
  rw [runPnl] at *
  rw [hv, hd]
  simp [initPnlState]

/-- Appending a buy event changes neither the equity value nor the recorded
PNL series. -/
theorem runPnl_append_buy (l : List SigEvent) (e : SigEvent) (he : e.typ = SigType.buy) :
    (runPnl (l ++ [e])).currentValue = (runPnl l).currentValue ∧
    (runPnl (l ++ [e])).pnlData = (runPnl l).pnlData := by
  have h : runPnl (l ++ [e]) = pnlStep (runPnl l) e := by
    simp [runPnl, runPnlFrom, List.foldl_append]
  rw [h]
  cases hp : (runPnl l).in_position <;> simp [pnlStep, he, hp]

/-- The per-bar equity assignment is constant on any interval containing no
trade close. -/
theorem equityAt_flat (pd : List PnlPoint) (t₁ t₂ : ℕ) (h12 : t₁ ≤ t₂)
    (h : ∀ p ∈ pd, p.time ≤ t₂ → p.time ≤ t₁) :
    equityAt pd t₂ = equityAt pd t₁ := by
  have hf : (pd.filter fun p => p.time ≤ t₂) = (pd.filter fun p => p.time ≤ t₁) := by
    refine List.filter_congr ?_
    intro p hp
    by_cases h2 : p.time ≤ t₂
    · simp [h2, h p hp h2]
    · have h1 : ¬ p.time ≤ t₁ := fun hle => h2 (le_trans hle h12)
      simp [h1, h2]
  rw [equityAt, equityAt, hf]

/-! ## Helper lemmas about index-wise pairing -/

theorem zip_dropLast_left {α β : Type} :
    ∀ (xs : List α) (ys : List β), ys.length < xs.length →
      xs.zip ys = xs.dropLast.zip ys := by
  intro xs
  induction xs with
  | nil => intro ys h; simp at h
  | cons x xs ih =>
    intro ys h
    cases ys with
    | nil => simp
    | cons y ys =>
      have hlt : ys.length < xs.length := by simpa using h
      have hne : xs ≠ [] := by
        intro hx; rw [hx] at hlt; simp at hlt
      cases xs with
      | nil => simp at hne
      | cons a as =>
        simp only [List.zip_cons_cons, List.dropLast_cons₂]
        rw [← ih ys hlt]

theorem zip_dropLast_right {α β : Type} :
    ∀ (xs : List α) (ys : List β), xs.length < ys.length →
      xs.zip ys = xs.zip ys.dropLast := by
  intro xs
  induction xs with
  | nil => intro ys h; simp
  | cons x xs ih =>
    intro ys h
    cases ys with
    | nil => simp at h
    | cons y ys =>
      have hlt : xs.length < ys.length := by simpa using h
      cases ys with
      | nil => simp at hlt
      | cons a as =>
        simp only [List.zip_cons_cons, List.dropLast_cons₂]
        rw [ih _ hlt]

/-- A positive return percentage is exactly a strictly higher exit price,
for positive entry prices. -/
theorem returnPct_pos_iff {b s : ℚ} (hb : 0 < b) : 0 < returnPct b s ↔ b < s := by
  have hform : returnPct b s = (s - b) * 100 / b := by rw [returnPct]; ring
  rw [hform, lt_div_iff₀ hb, zero_mul]
  constructor
  · intro h; nlinarith
  · intro h; nlinarith

/-- Every accepted buy comes from the input event list. -/
theorem runSim_validBuys_mem (l : List SigEvent) {e : SigEvent}
    (h : e ∈ (runSim l).validBuys) : e ∈ l := by
  obtain ⟨_, _, h3, _⟩ := runSim_inv l
  rw [h3] at h
  exact runSim_accepted_mem l (List.mem_filter.mp h).1

/-! ## The claims -/

/-- C2: in every run, the accepted transition trace strictly alternates
starting with a buy (`FLAT→LONG`): a buy is accepted only when no position
is open, a sell only when one is open, so the position is never LONG when
another `FLAT→LONG` transition fires and between any two `FLAT→LONG`
transitions there is a `LONG→FLAT` transition.  The valid buy/sell
accumulators are exactly the buy and sell events of that trace. -/
theorem C2_no_overlapping_positions (l : List SigEvent) :
    altOk false (runSim l).accepted = true ∧
    (runSim l).validBuys = (runSim l).accepted.filter (fun e => e.typ == SigType.buy) ∧
    (runSim l).validSells = (runSim l).accepted.filter (fun e => e.typ == SigType.sell) := by
  obtain ⟨h1, _, h3, h4⟩ := runSim_inv l
  exact ⟨h1, h3, h4⟩

/-- C4: every completed trade records return percentage
`(exit − entry)/entry × 100` exactly, and a buy at price `P` followed at the
next bar by a sell at price `Q` yields exactly one trade with return
`(Q − P)/P × 100`. -/
theorem C4_return_percentage (P Q : ℚ) (t : ℕ) (hP : P ≠ 0) :
    (∀ l : List SigEvent, ∀ tr ∈ tradesOf (runSim l).validBuys (runSim l).validSells,
        tr.retPct = (tr.exitPrice - tr.entryPrice) / tr.entryPrice * 100) ∧
    tradesOf (runSim [⟨t, SigType.buy, P⟩, ⟨t + 1, SigType.sell, Q⟩]).validBuys
        (runSim [⟨t, SigType.buy, P⟩, ⟨t + 1, SigType.sell, Q⟩]).validSells =
      [⟨t, P, t + 1, Q, (Q - P) / P * 100⟩] := by
  constructor
  · intro l tr htr
    simp only [tradesOf, List.mem_map] at htr
    obtain ⟨pair, _, rfl⟩ := htr
    rfl
  · simp [runSim, runSimFrom, simStep, initState, tradesOf, mkTrade, returnPct]

theorem C4_return_percentage_witness :
    (10 : ℚ) ≠ 0 ∧
    tradesOf (runSim [⟨1, SigType.buy, 10⟩, ⟨2, SigType.sell, 9⟩]).validBuys
        (runSim [⟨1, SigType.buy, 10⟩, ⟨2, SigType.sell, 9⟩]).validSells =
      [⟨1, 10, 2, 9, ((9 : ℚ) - 10) / 10 * 100⟩] :=
  ⟨by norm_num, (C4_return_percentage 10 9 1 (by norm_num)).2⟩

/-- C5 (counterexample): a buy and a sell signal at the same bar (time 5)
while FLAT: the run opens the position at that bar and the sell is accepted
at the very same bar, contradicting the claim that a just-opened position
cannot be closed until a strictly later bar. -/
theorem C5_counterexample :
    (runSim (orderSignals [⟨5, SigType.buy, 10⟩] [⟨5, SigType.sell, 12⟩])).validBuys =
      [⟨5, SigType.buy, 10⟩] ∧
    (runSim (orderSignals [⟨5, SigType.buy, 10⟩] [⟨5, SigType.sell, 12⟩])).validSells =
      [⟨5, SigType.sell, 12⟩] ∧
    (runSim (orderSignals [⟨5, SigType.buy, 10⟩] [⟨5, SigType.sell, 12⟩])).in_position =
      false := by
  refine ⟨?_, ?_, ?_⟩ <;>
    simp [runSim, runSimFrom, simStep, initState, orderSignals, sortByTime, insertByTime]

/-- C5 (amended): buy takes precedence only in processing order: at a bar
where both conditions fire while FLAT, the buy event is ordered first and
opens the position, and the sell event of the same bar is then evaluated
against the new position and closes it at that same bar (a same-bar round
trip), rather than taking effect only at a strictly later bar. -/
theorem C5_buy_precedence (t : ℕ) (p q : ℚ) (s : SimState) (h : s.in_position = false) :
    orderSignals [⟨t, SigType.buy, p⟩] [⟨t, SigType.sell, q⟩] =
      [⟨t, SigType.buy, p⟩, ⟨t, SigType.sell, q⟩] ∧
    (runSimFrom s (orderSignals [⟨t, SigType.buy, p⟩] [⟨t, SigType.sell, q⟩])).validBuys =
      s.validBuys ++ [⟨t, SigType.buy, p⟩] ∧
    (runSimFrom s (orderSignals [⟨t, SigType.buy, p⟩] [⟨t, SigType.sell, q⟩])).validSells =
      s.validSells ++ [⟨t, SigType.sell, q⟩] ∧
    (runSimFrom s (orderSignals [⟨t, SigType.buy, p⟩] [⟨t, SigType.sell, q⟩])).in_position =
      false := by
  have hord : orderSignals [⟨t, SigType.buy, p⟩] [⟨t, SigType.sell, q⟩] =
      [⟨t, SigType.buy, p⟩, ⟨t, SigType.sell, q⟩] := by
    simp [orderSignals, sortByTime, insertByTime]
  refine ⟨hord, ?_, ?_, ?_⟩ <;> rw [hord] <;> simp [runSimFrom, simStep, h]

theorem C5_buy_precedence_witness :
    (runSimFrom initState (orderSignals [⟨5, SigType.buy, 10⟩] [⟨6, SigType.sell, 12⟩])).validBuys =
      initState.validBuys ++ [⟨5, SigType.buy, 10⟩] := by
  have h := C5_buy_precedence 5 10 12 initState rfl
  exact h.2.1

/-- C6: if the pool-existence check fails, neither swap operation performs
any chain action beyond the factory lookup: no approval and no swap
transaction is ever submitted, and the operation fails with the
no-liquidity-pool error. -/
theorem C6_no_swap_without_pool (env : ChainEnv) (amountEthWei amountTokens : ℕ)
    (slippage : ℚ) (h : checkPairExists env.pairLookup = false) :
    (swapExactEthForTokens env amountEthWei slippage).actions = [ChainAction.getPair] ∧
    (swapExactEthForTokens env amountEthWei slippage).result =
      SwapResult.failed "No liquidity pool exists for this pair" ∧
    (∀ a m d, ChainAction.submitSwap a m d ∉
      (swapExactEthForTokens env amountEthWei slippage).actions) ∧
    (swapExactTokensForEth env amountTokens slippage).actions = [ChainAction.getPair] ∧
    (swapExactTokensForEth env amountTokens slippage).result =
      SwapResult.failed "No liquidity pool exists for this pair" ∧
    (∀ a m d, ChainAction.submitSwap a m d ∉
      (swapExactTokensForEth env amountTokens slippage).actions) := by
  refine ⟨?_, ?_, ?_, ?_, ?_, ?_⟩ <;>
    simp [swapExactEthForTokens, swapExactTokensForEth, h]

theorem C6_no_swap_without_pool_witness :
    (swapExactEthForTokens ⟨CallResult.ok 0, CallResult.ok [5, 100], CallResult.ok 0,
        CallResult.ok (), CallResult.ok true, CallResult.ok 18, none, 0⟩ 3 (1 / 2)).actions =
      [ChainAction.getPair] :=
  (C6_no_swap_without_pool ⟨CallResult.ok 0, CallResult.ok [5, 100], CallResult.ok 0,
    CallResult.ok (), CallResult.ok true, CallResult.ok 18, none, 0⟩ 3 4 (1 / 2) (by decide)).1

/-- C7 (counterexample): at quoted output 100 and slippage 0.5 % the code
computes `minAmountOut = (100 * 995) / 1000 = 99` with BigInt truncation,
not the claimed `100 × 0.995 = 99.5`. -/
theorem C7_counterexample :
    minAmountOutOf 100 (1 / 2) = 99 ∧
    ((minAmountOutOf 100 (1 / 2) : ℚ) ≠ (100 : ℚ) * (1 - (1 / 2) / 100)) := by
  have h : minAmountOutOf 100 (1 / 2) = 99 := by
    norm_num [minAmountOutOf]
    decide
  refine ⟨h, ?_⟩
  rw [h]
  norm_num

/-- C7 (amended): both swap operations submit with
`minAmountOut = (quotedOut * ⌊(1 − slippage/100) * 1000⌋).tdiv 1000` — the
reference per-mille multiplier but with integer (BigInt) truncation at the
final division — computed from the fresh quote; at quoted output 100 and
slippage 0.5 % this gives 99, not 99.5. -/
theorem C7_min_amount_out (env : ChainEnv) (amountEthWei amountTokens : ℕ)
    (slippage : ℚ) (a0 quotedOut : ℕ) (rest : List ℕ)
    (hpair : checkPairExists env.pairLookup = true)
    (hquote : env.quoteLookup = CallResult.ok (a0 :: quotedOut :: rest)) :
    (∀ (q : ℕ) (s : ℚ), minAmountOutOf q s =
      Int.tdiv ((q : ℤ) * ⌊(1 - s / 100) * 1000⌋) 1000) ∧
    minAmountOutOf 100 (1 / 2) = 99 ∧
    (ChainAction.submitSwap amountEthWei (minAmountOutOf quotedOut slippage) (env.now + 300) ∈
      (swapExactEthForTokens env amountEthWei slippage).actions) ∧
    (∀ alw : ℕ, env.allowanceLookup = CallResult.ok alw →
      env.approveResult = CallResult.ok () →
      ∃ a, ChainAction.submitSwap a (minAmountOutOf quotedOut slippage) (env.now + 300) ∈
        (swapExactTokensForEth env amountTokens slippage).actions) := by
  refine ⟨fun q s => rfl, ?_, ?_, ?_⟩
  · norm_num [minAmountOutOf]
    decide
  · cases htx : env.txResult <;>
      simp [swapExactEthForTokens, hpair, quoteAndSwap, hquote, htx]
  · intro alw halw happr
    refine ⟨amountTokens * 10 ^ getTokenDecimals env.cachedDecimals env.decimalsLookup, ?_⟩
    by_cases hlt : alw < amountTokens * 10 ^ getTokenDecimals env.cachedDecimals env.decimalsLookup <;>
      cases htx : env.txResult <;>
      simp [swapExactTokensForEth, hpair, quoteAndSwap, hquote, htx, halw, happr, hlt]

theorem C7_min_amount_out_witness :
    ChainAction.submitSwap 3 (minAmountOutOf 100 (1 / 2)) (0 + 300) ∈
      (swapExactEthForTokens ⟨CallResult.ok 1, CallResult.ok [50, 100], CallResult.ok 0,
        CallResult.ok (), CallResult.ok true, CallResult.ok 18, none, 0⟩ 3 (1 / 2)).actions :=
  (C7_min_amount_out ⟨CallResult.ok 1, CallResult.ok [50, 100], CallResult.ok 0,
    CallResult.ok (), CallResult.ok true, CallResult.ok 18, none, 0⟩ 3 4 (1 / 2) 50 100 []
    (by decide) rfl).2.2.1

/-- C10: `checkPairExists` is a total boolean function: it reports `false`
both when the factory returns the zero address and when the factory call
throws — a transient RPC failure is indistinguishable from a missing pool —
and in the throwing case the subsequent swap aborts before any transaction
is sent. -/
theorem C10_checkPairExists_never_throws :
    (∀ msg, checkPairExists (CallResult.thrown msg) = false) ∧
    checkPairExists (CallResult.ok zeroAddress) = false ∧
    (∀ msg, checkPairExists (CallResult.thrown msg) = checkPairExists (CallResult.ok zeroAddress)) ∧
    (∀ addr : ℕ, addr ≠ zeroAddress → checkPairExists (CallResult.ok addr) = true) ∧
    (∀ (env : ChainEnv) (amountWei : ℕ) (slippage : ℚ) (msg : String),
      env.pairLookup = CallResult.thrown msg →
      (swapExactEthForTokens env amountWei slippage).actions = [ChainAction.getPair] ∧
      (swapExactEthForTokens env amountWei slippage).result =
        SwapResult.failed "No liquidity pool exists for this pair") := by
  refine ⟨fun msg => rfl, rfl, fun msg => rfl, ?_, ?_⟩
  · intro addr h
    simp only [zeroAddress] at h
    simp [checkPairExists, zeroAddress, h]
  · intro env aw s msg h
    constructor <;> simp [swapExactEthForTokens, checkPairExists, h]

theorem C10_checkPairExists_never_throws_witness :
    checkPairExists (CallResult.ok 7) = true ∧
    (swapExactEthForTokens ⟨CallResult.thrown "rpc down", CallResult.ok [5, 100],
        CallResult.ok 0, CallResult.ok (), CallResult.ok true, CallResult.ok 18, none, 0⟩
        1 (1 / 2)).actions = [ChainAction.getPair] :=
  ⟨C10_checkPairExists_never_throws.2.2.2.1 7 (by decide),
   (C10_checkPairExists_never_throws.2.2.2.2 ⟨CallResult.thrown "rpc down",
      CallResult.ok [5, 100], CallResult.ok 0, CallResult.ok (), CallResult.ok true,
      CallResult.ok 18, none, 0⟩ 1 (1 / 2) "rpc down" rfl).1⟩

/-- C1: over the trade log of any run with positive prices, the aggregator
returns total_trades = number of completed trades, profitable_trades =
number of trades with strictly positive return percentage, win_rate =
profitable/total × 100 (0 when total = 0), total_return = sum of the return
percentages, and avg_return = total_return/total (0 when total = 0). -/
theorem C1_statistics_aggregator (l : List SigEvent) (hpos : ∀ e ∈ l, 0 < e.price) :
    (tradingStats (runSim l).validBuys (runSim l).validSells).total_trades =
      (tradesOf (runSim l).validBuys (runSim l).validSells).length ∧
    (tradingStats (runSim l).validBuys (runSim l).validSells).profitable_trades =
      (tradesOf (runSim l).validBuys (runSim l).validSells).countP
        (fun tr => decide (0 < tr.retPct)) ∧
    (tradingStats (runSim l).validBuys (runSim l).validSells).win_rate =
      (if (tradingStats (runSim l).validBuys (runSim l).validSells).total_trades = 0 then 0
       else ((tradingStats (runSim l).validBuys (runSim l).validSells).profitable_trades : ℚ) /
         ((tradingStats (runSim l).validBuys (runSim l).validSells).total_trades : ℚ) * 100) ∧
    (tradingStats (runSim l).validBuys (runSim l).validSells).total_return =
      ((tradesOf (runSim l).validBuys (runSim l).validSells).map Trade.retPct).sum ∧
    (tradingStats (runSim l).validBuys (runSim l).validSells).avg_return =
      (if (tradingStats (runSim l).validBuys (runSim l).validSells).total_trades = 0 then 0
       else (tradingStats (runSim l).validBuys (runSim l).validSells).total_return /
         ((tradingStats (runSim l).validBuys (runSim l).validSells).total_trades : ℚ)) := by
  obtain ⟨hsb, _⟩ := runSim_length_le l
  have hziplen : ((runSim l).validBuys.zip (runSim l).validSells).length =
      (runSim l).validSells.length := by
    rw [List.length_zip]
    exact min_eq_right hsb
  have hlen : (tradesOf (runSim l).validBuys (runSim l).validSells).length =
      (runSim l).validSells.length := by
    rw [tradesOf, List.length_map, hziplen]
  have hprof : (tradingStats (runSim l).validBuys (runSim l).validSells).profitable_trades =
      (tradesOf (runSim l).validBuys (runSim l).validSells).countP
        (fun tr => decide (0 < tr.retPct)) := by
    show profitableCount (runSim l).validBuys (runSim l).validSells = _
    rw [profitableCount, tradesOf, List.countP_map,
      ← List.zip_swap (runSim l).validBuys (runSim l).validSells, List.countP_map]
    refine List.countP_congr ?_
    intro pair hmem
    have hbuy : pair.1 ∈ (runSim l).validBuys := (List.of_mem_zip hmem).1
    have hbpos : 0 < pair.1.price := hpos pair.1 (runSim_validBuys_mem l hbuy)
    have hiff := returnPct_pos_iff (s := pair.2.price) hbpos
    simp only [Function.comp_apply, Prod.swap_prod_mk, decide_eq_true_eq]
    constructor
    · intro hlt
      exact hiff.mpr hlt
    · intro hgt
      exact hiff.mp hgt
  have htt : (tradingStats (runSim l).validBuys (runSim l).validSells).total_trades =
      (runSim l).validSells.length := rfl
  have hpt : (tradingStats (runSim l).validBuys (runSim l).validSells).profitable_trades =
      profitableCount (runSim l).validBuys (runSim l).validSells := rfl
  have htr : (tradingStats (runSim l).validBuys (runSim l).validSells).total_return =
      (returnsList (runSim l).validBuys (runSim l).validSells).sum := rfl
  have hrlen : (returnsList (runSim l).validBuys (runSim l).validSells).length =
      (runSim l).validSells.length := by
    rw [returnsList, List.length_map, hziplen]
  refine ⟨?_, hprof, ?_, ?_, ?_⟩
  · rw [hlen]; rfl
  · show (if 0 < (runSim l).validSells.length then
        ((profitableCount (runSim l).validBuys (runSim l).validSells : ℚ)) /
          ((runSim l).validSells.length : ℚ) * 100 else 0) = _
    rw [htt, hpt]
    rcases Nat.eq_zero_or_pos (runSim l).validSells.length with hz | hz
    · simp [hz]
    · simp [hz, Nat.pos_iff_ne_zero.mp hz]
  · show (returnsList (runSim l).validBuys (runSim l).validSells).sum = _
    rw [tradesOf, List.map_map]
    rfl
  · show (if returnsList (runSim l).validBuys (runSim l).validSells ≠ [] then
        (returnsList (runSim l).validBuys (runSim l).validSells).sum /
          ((returnsList (runSim l).validBuys (runSim l).validSells).length : ℚ) else 0) = _
    rw [htt, htr, hrlen]
    rcases Nat.eq_zero_or_pos (runSim l).validSells.length with hz | hz
    · have hnil : returnsList (runSim l).validBuys (runSim l).validSells = [] :=
        List.length_eq_zero.mp (by rw [hrlen, hz])
      simp [hnil, hz]
    · have hnz : (runSim l).validSells.length ≠ 0 := Nat.pos_iff_ne_zero.mp hz
      have hnil : returnsList (runSim l).validBuys (runSim l).validSells ≠ [] := by
        intro hcon
        rw [hcon] at hrlen
        simp at hrlen
        omega
      simp [hnil, hnz]

theorem C1_statistics_aggregator_witness :
    (tradingStats (runSim [⟨1, SigType.buy, 10⟩, ⟨2, SigType.sell, 9⟩]).validBuys
        (runSim [⟨1, SigType.buy, 10⟩, ⟨2, SigType.sell, 9⟩]).validSells).total_trades =
      (tradesOf (runSim [⟨1, SigType.buy, 10⟩, ⟨2, SigType.sell, 9⟩]).validBuys
        (runSim [⟨1, SigType.buy, 10⟩, ⟨2, SigType.sell, 9⟩]).validSells).length :=
  (C1_statistics_aggregator [⟨1, SigType.buy, 10⟩, ⟨2, SigType.sell, 9⟩]
    (by intro e he; fin_cases he <;> norm_num)).1

/-- C3: the equity curve starts at the documented fixed capital 1000, the
portfolio value is multiplied by `1 + return/100` exactly once per recorded
trade close and by nothing else, the per-bar equity is held flat between
trade closes, and the spec scenario — bars `[(1,10),(2,12),(3,9),(4,11)]`
with buy only at bar 1 and sell only at bar 3 — produces exactly one trade
(entry 10 at bar 1, exit 9 at bar 3, return −10 %) with final equity
`1000 × 0.9 = 900` and per-bar equity `[1000, 1000, 900, 900]`. -/
theorem C3_equity_curve :
    initialInvestment = 1000 ∧
    (∀ l : List SigEvent, (runPnl l).currentValue =
      initialInvestment * (((runPnl l).pnlData.map fun p => 1 + p.profitPct / 100)).prod) ∧
    (∀ (pd : List PnlPoint) (t₁ t₂ : ℕ), t₁ ≤ t₂ →
      (∀ p ∈ pd, p.time ≤ t₂ → p.time ≤ t₁) → equityAt pd t₂ = equityAt pd t₁) ∧
    (processSignal scenarioFrame "my_signal").trades =
      [{ entryTime := 1, entryPrice := 10, exitTime := 3, exitPrice := 9, retPct := -10 }] ∧
    (processSignal scenarioFrame "my_signal").pnl.currentValue = 900 ∧
    (scenarioFrame.rows.map fun r =>
      equityAt (processSignal scenarioFrame "my_signal").pnl.pnlData r.time) =
      [1000, 1000, 900, 900] := by
  refine ⟨rfl, runPnl_value, fun pd t₁ t₂ h12 h => equityAt_flat pd t₁ t₂ h12 h, ?_, ?_, ?_⟩
  · simp [processSignal, scenarioFrame, buyRows, sellRows, rowEvent, orderSignals, sortByTime,
      insertByTime, runSim, runSimFrom, initState, simStep, tradesOf, mkTrade, returnPct,
      requiredColumns]
    norm_num
  · simp [processSignal, scenarioFrame, buyRows, sellRows, rowEvent, orderSignals, sortByTime,
      insertByTime, runSim, runSimFrom, initState, simStep, runPnl, runPnlFrom, pnlStep,
      initPnlState, initialInvestment, requiredColumns]
    norm_num
  · simp [processSignal, scenarioFrame, buyRows, sellRows, rowEvent, orderSignals, sortByTime,
      insertByTime, runSim, runSimFrom, initState, simStep, runPnl, runPnlFrom, pnlStep,
      initPnlState, initialInvestment, equityAt, requiredColumns]
    norm_num

theorem C3_equity_curve_witness :
    equityAt [⟨3, 900, -10⟩] 4 = equityAt [⟨3, 900, -10⟩] 3 :=
  C3_equity_curve.2.2.1 [⟨3, 900, -10⟩] 3 4 (by norm_num)
    (by intro p hp; fin_cases hp; intro h; exact le_refl 3)

/-- C8: the missing-column half of the claim holds — a request naming
indicator columns absent from the data fails with the configuration error
carrying exactly the list of all missing columns, before any simulation or
trade computation — but the empty-series half is a code bug: on an empty
bar series with a signal column present, zero buys are accepted, line 200
builds a column-less valid-buy frame, and the unguarded line 220 indexes
its high column and raises `KeyError` before the emptiness guard of line
223, so the run crashes instead of returning a zero-trade result. -/
theorem C8_missing_columns_and_empty_crash :
    (∀ (df : DFrame) (indicators : List String),
      indicators.filter (fun i => !(df.columns.contains i)) ≠ [] →
      plot_with_indicators df indicators =
        Except.error (PlotError.configurationError
          (indicators.filter fun i => !(df.columns.contains i)))) ∧
    plot_with_indicators emptyFrame ["my_signal"] =
      Except.error (PlotError.keyError "high") ∧
    (∀ (df : DFrame) (col : String), df.rows = [] →
      renderSignal df col = Except.error (PlotError.keyError "high")) := by
  refine ⟨?_, ?_, ?_⟩
  · intro df inds h
    simp only [plot_with_indicators]
    rw [if_pos h]
  · simp only [plot_with_indicators]
    rw [if_neg (fun hc => hc (by decide)), if_neg (fun hc => hc (by decide))]
    rfl
  · intro df col hrows
    have hb : buyRows df col = [] := by simp [buyRows, hrows]
    have hs : sellRows df col = [] := by simp [sellRows, hrows]
    simp [renderSignal, processSignal, hb, hs, orderSignals, sortByTime,
      runSim, runSimFrom, initState]

theorem C8_missing_columns_and_empty_crash_witness :
    plot_with_indicators { columns := ["datetime"], rows := [] } ["foo_signal"] =
      Except.error (PlotError.configurationError ["foo_signal"]) := by
  have h := C8_missing_columns_and_empty_crash.1 { columns := ["datetime"], rows := [] }
    ["foo_signal"] (by decide)
  exact h

/-- C9: accepted buys and sells strictly alternate starting with a buy, so
sells never outnumber buys and buys exceed sells by at most one; the i-th
completed trade pairs the i-th accepted buy with the i-th accepted sell;
and a trailing accepted buy with no matching sell contributes no trade:
dropping it changes neither the trade list nor any statistic, and appending
a buy event never changes the equity value or the recorded PNL series. -/
theorem C9_pairing_and_trailing_buy :
    (∀ l : List SigEvent, altOk false (runSim l).accepted = true ∧
      (runSim l).validSells.length ≤ (runSim l).validBuys.length ∧
      (runSim l).validBuys.length ≤ (runSim l).validSells.length + 1) ∧
    (∀ (l : List SigEvent) (i : ℕ),
      ∀ hb : i < (runSim l).validBuys.length,
      ∀ hs : i < (runSim l).validSells.length,
      ∀ ht : i < (tradesOf (runSim l).validBuys (runSim l).validSells).length,
      (tradesOf (runSim l).validBuys (runSim l).validSells).get ⟨i, ht⟩ =
        mkTrade ((runSim l).validBuys.get ⟨i, hb⟩) ((runSim l).validSells.get ⟨i, hs⟩)) ∧
    (∀ buys sells : List SigEvent, buys.length = sells.length + 1 →
      tradesOf buys sells = tradesOf buys.dropLast sells ∧
      tradingStats buys sells = tradingStats buys.dropLast sells) ∧
    (∀ (l : List SigEvent) (e : SigEvent), e.typ = SigType.buy →
      (runPnl (l ++ [e])).currentValue = (runPnl l).currentValue ∧
      (runPnl (l ++ [e])).pnlData = (runPnl l).pnlData) := by
  refine ⟨?_, ?_, ?_, fun l e he => runPnl_append_buy l e he⟩
  · intro l
    obtain ⟨h1, _, _, _⟩ := runSim_inv l
    exact ⟨h1, runSim_length_le l⟩
  · intro l i hb hs ht
    simp [tradesOf, List.getElem_zip]
  · intro buys sells hlen
    have hzip : buys.zip sells = buys.dropLast.zip sells :=
      zip_dropLast_left buys sells (by omega)
    have hzip2 : sells.zip buys = sells.zip buys.dropLast :=
      zip_dropLast_right sells buys (by omega)
    constructor
    · rw [tradesOf, tradesOf, hzip]
    · simp only [tradingStats, returnsList, profitableCount, hzip, hzip2]

theorem C9_pairing_and_trailing_buy_witness :
    tradingStats [⟨1, SigType.buy, 10⟩, ⟨4, SigType.buy, 11⟩] [⟨2, SigType.sell, 12⟩] =
      tradingStats ([⟨1, SigType.buy, 10⟩, ⟨4, SigType.buy, 11⟩] : List SigEvent).dropLast
        [⟨2, SigType.sell, 12⟩] :=
  (C9_pairing_and_trailing_buy.2.2.1 [⟨1, SigType.buy, 10⟩, ⟨4, SigType.buy, 11⟩]
    [⟨2, SigType.sell, 12⟩] (by decide)).2

end ETHSight
